import Mathlib

/-!
# Verification of the csv2struct header-reconciliation and type-coercion engine

Shallow embedding of `csv_to_struct.go` / `errors.go` (package `csv2struct`,
first variant of the source file, the one the spec adopts as the contract).

Modelling conventions:
* Go struct types are modelled as ordered lists of fields; a field carries its
  `GoKind` and whether reflection can set it (`CanSet`, i.e. exported).
* Machine integers are `Int`/`Nat` with explicit two's-complement reduction
  where Go's `reflect.Value.SetInt`/`SetUint` narrow a wide value.
* Go panics (out-of-range indexing, unsupported types at construction) are
  explicit: construction returns `Option`, row decoding returns an error value.
* `strconv.ParseBool/ParseInt/ParseUint` are modelled exactly (base 10,
  bitSize 0 = 64-bit); `strconv.ParseFloat` and `time.Parse` are modelled as
  syntax acceptors (decimal/exponent forms, RFC3339) since no claim depends on
  float arithmetic or on calendar normalisation; the time format is fixed at
  the default `time.RFC3339` (no claim exercises `WithTimeFormat`).
-/

/-- Go `reflect.Kind`/type of a struct field, restricted to the shapes the
decoder distinguishes.  `structK name` is a struct type with its
`reflect.Type.String()` name (`time.Time` is the recognised one);
`intK w`/`uintK w`/`floatK w` carry the declared bit width. -/
inductive GoKind where
  | stringK
  | boolK
  | intK (w : Nat)
  | uintK (w : Nat)
  | floatK (w : Nat)
  | structK (typeName : String)
  | ptrK (elem : GoKind)
  | mapK
  | sliceK
  | arrayK
  | chanK
deriving DecidableEq, Repr

/-- A runtime Go value for the kinds above.  Pointer values are either `nil`
(`ptrNil`) or point at a value (`ptrV`).  Float and time values are carried as
their accepted literal text (no claim depends on their arithmetic). -/
inductive GoValue where
  | str (s : String)
  | boolV (b : Bool)
  | intV (w : Nat) (n : Int)
  | uintV (w : Nat) (n : Nat)
  | floatV (w : Nat) (lit : String)
  | timeV (lit : String)
  | structZero (typeName : String)
  | ptrNil
  | ptrV (v : GoValue)
  | zeroOther
deriving DecidableEq, Repr

/-- The zero value of a Go type. -/
def zeroValue : GoKind → GoValue
  | .stringK => .str ""
  | .boolK => .boolV false
  | .intK w => .intV w 0
  | .uintK w => .uintV w 0
  | .floatK w => .floatV w "0"
  | .structK n => .structZero n
  | .ptrK _ => .ptrNil
  | _ => .zeroOther

/-- `errors.go`: `IncorrectFileErr` carries a human-readable message. -/
structure IncorrectFileErr where
  message : String
deriving DecidableEq, Repr

/-- `errors.go`: `NewIncorrectFileErr`. -/
def NewIncorrectFileErr (message : String) : IncorrectFileErr :=
  { message := message }

/-- The distinct error values row decoding can return (`errors.New`,
`fmt.Errorf` and the `strconv`/`time` parse errors of the source, identified
by their provenance; Go panics from out-of-range reflection indexing are the
explicit `indexPanic`). -/
inductive DecodeErr where
  | rowShapeErr
  | typeMismatchErr
  | parseBoolErr (s : String)
  | parseIntErr (s : String)
  | parseUintErr (s : String)
  | parseFloatErr (s : String)
  | parseTimeErr (s : String)
  | unsupportedTypeErr (t : GoKind)
  | indexPanic
deriving DecidableEq, Repr

/-- `fmt.Sprintf("%q", s)` on the strings that occur in headers: wrap in
double quotes, escaping quote, backslash and the common control characters
(escaping of other non-printables is not exercised by any claim). -/
def goQuoteChar (c : Char) : String :=
  if c = '"' then "\\\""
  else if c = '\\' then "\\\\"
  else if c = '\n' then "\\n"
  else if c = '\t' then "\\t"
  else if c = '\r' then "\\r"
  else String.singleton c

/-- Go `%q` quoting of a string. -/
def goQuote (s : String) : String :=
  "\"" ++ String.join (s.data.map goQuoteChar) ++ "\""

/-- `strings.ToLower` on one character, for the ASCII range (the headers the
claims exercise; Unicode case folding is elided). -/
def goToLowerChar (c : Char) : Char :=
  if 'A' ≤ c ∧ c ≤ 'Z' then Char.ofNat (c.toNat + 32) else c

/-- `strings.ToLower`. -/
def goToLower (s : String) : String :=
  String.mk (s.data.map goToLowerChar)

/-- `unicode.IsSpace` for the ASCII white-space characters (the exotic
Unicode space code points are elided — no claim exercises them). -/
def goIsSpace (c : Char) : Bool :=
  c = ' ' || c = '\t' || c = '\n' || c = '\r' ||
    c = Char.ofNat 11 || c = Char.ofNat 12

/-- `strings.TrimSpace`: drop leading and trailing white space. -/
def goTrimSpace (s : String) : String :=
  String.mk (((s.data.dropWhile goIsSpace).reverse.dropWhile goIsSpace).reverse)

/-- The header-cell normalisation of `ParseHeader`:
`strings.ToLower(strings.TrimSpace(col))`. -/
def goNormalize (s : String) : String :=
  goToLower (goTrimSpace s)

/-- `strconv.ParseBool`: exactly the listed forms. -/
def goParseBool (s : String) : Option Bool :=
  if s = "1" ∨ s = "t" ∨ s = "T" ∨ s = "TRUE" ∨ s = "true" ∨ s = "True" then
    some true
  else if s = "0" ∨ s = "f" ∨ s = "F" ∨ s = "FALSE" ∨ s = "false" ∨ s = "False" then
    some false
  else none

/-- Decimal value of a non-empty all-digit character list (base 10, no sign,
no underscores — underscores are only recognised by `strconv` for base 0). -/
def decVal? (cs : List Char) : Option Nat :=
  if cs ≠ [] ∧ cs.all (·.isDigit) then
    some (cs.foldl (fun a c => a * 10 + (c.toNat - 48)) 0)
  else none

/-- `strconv.ParseUint(s, 10, 0)`: digits only (no sign), value must fit in
64 bits; `none` covers both `ErrSyntax` and `ErrRange`. -/
def goParseUint64 (s : String) : Option Nat :=
  match decVal? s.data with
  | some n => if n < 2 ^ 64 then some n else none
  | none => none

/-- `strconv.ParseInt(s, 10, 0)`: optional single sign then digits, value must
fit in a signed 64-bit integer (bitSize 0 = `int` = 64-bit);
`none` covers both `ErrSyntax` and `ErrRange`. -/
def goParseInt64 (s : String) : Option Int :=
  match s.data with
  | '+' :: rest =>
    match decVal? rest with
    | some n => if (n : Int) ≤ 2 ^ 63 - 1 then some (n : Int) else none
    | none => none
  | '-' :: rest =>
    match decVal? rest with
    | some n => if (n : Int) ≤ 2 ^ 63 then some (-(n : Int)) else none
    | none => none
  | cs =>
    match decVal? cs with
    | some n => if (n : Int) ≤ 2 ^ 63 - 1 then some (n : Int) else none
    | none => none

/-- Exponent part of a float literal: optional sign then at least one digit. -/
def floatExpOk : List Char → Bool
  | '+' :: t => !t.isEmpty && t.all (·.isDigit)
  | '-' :: t => !t.isEmpty && t.all (·.isDigit)
  | t => !t.isEmpty && t.all (·.isDigit)

/-- Unsigned body of a float literal: `digits [. digits] [(e|E) exp]` with at
least one digit in the mantissa. -/
def floatBodyOk (cs : List Char) : Bool :=
  let intPart := cs.takeWhile (·.isDigit)
  let r1 := cs.drop intPart.length
  match r1 with
  | [] => !intPart.isEmpty
  | '.' :: t =>
    let fracPart := t.takeWhile (·.isDigit)
    let r2 := t.drop fracPart.length
    (!intPart.isEmpty || !fracPart.isEmpty) &&
      (match r2 with
       | [] => true
       | 'e' :: e => floatExpOk e
       | 'E' :: e => floatExpOk e
       | _ => false)
  | 'e' :: e => !intPart.isEmpty && floatExpOk e
  | 'E' :: e => !intPart.isEmpty && floatExpOk e
  | _ => false

/-- `strconv.ParseFloat(s, 64)` as a syntax acceptor: optional sign, then
either one of the special words `inf`/`infinity`/`nan` (case-insensitive) or a
decimal/exponent literal (hexadecimal float literals are not exercised by any
claim and are elided). -/
def goParseFloatOk (s : String) : Bool :=
  let body := match s.data with
    | '+' :: t => t
    | '-' :: t => t
    | t => t
  let lower := goToLower (String.mk body)
  if lower = "inf" ∨ lower = "infinity" ∨ lower = "nan" then true
  else floatBodyOk body

/-- Two-digit decimal value of two characters. -/
def twoDigits (a b : Char) : Nat :=
  (a.toNat - 48) * 10 + (b.toNat - 48)

/-- Time-zone suffix of an RFC3339 timestamp: `Z` or `±hh:mm`. -/
def rfc3339ZoneOk : List Char → Bool
  | ['Z'] => true
  | [sgn, a, b, ':', c, d] =>
    (sgn = '+' || sgn = '-') && a.isDigit && b.isDigit && c.isDigit && d.isDigit &&
      twoDigits a b ≤ 23 && twoDigits c d ≤ 59
  | _ => false

/-- Optional fractional seconds then the zone. -/
def rfc3339FracZoneOk : List Char → Bool
  | '.' :: t =>
    let ds := t.takeWhile (·.isDigit)
    !ds.isEmpty && rfc3339ZoneOk (t.drop ds.length)
  | t => rfc3339ZoneOk t

/-- `time.Parse(time.RFC3339, s)` as a syntax acceptor:
`yyyy-mm-ddThh:mm:ss[.frac](Z|±hh:mm)` with the component range checks Go
performs (day-of-month validity per month is elided — no claim exercises it). -/
def rfc3339Ok (s : String) : Bool :=
  match s.data with
  | y1 :: y2 :: y3 :: y4 :: '-' :: m1 :: m2 :: '-' :: d1 :: d2 :: 'T' ::
      h1 :: h2 :: ':' :: n1 :: n2 :: ':' :: s1 :: s2 :: rest =>
    y1.isDigit && y2.isDigit && y3.isDigit && y4.isDigit &&
    m1.isDigit && m2.isDigit && d1.isDigit && d2.isDigit &&
    h1.isDigit && h2.isDigit && n1.isDigit && n2.isDigit &&
    s1.isDigit && s2.isDigit &&
    1 ≤ twoDigits m1 m2 && twoDigits m1 m2 ≤ 12 &&
    1 ≤ twoDigits d1 d2 && twoDigits d1 d2 ≤ 31 &&
    twoDigits h1 h2 ≤ 23 && twoDigits n1 n2 ≤ 59 && twoDigits s1 s2 ≤ 59 &&
    rfc3339FracZoneOk rest
  | _ => false

/-- `reflect.Value.SetUint` into a `w`-bit unsigned field: plain truncation. -/
def wrapUint (w : Nat) (n : Nat) : Nat :=
  n % 2 ^ w

/-- `reflect.Value.SetInt` into a `w`-bit signed field: two's-complement
truncation (Go integer conversion semantics — no overflow check). -/
def wrapInt (w : Nat) (n : Int) : Int :=
  let m := n % (2 ^ w : Int)
  if m < 2 ^ (w - 1) then m else m - 2 ^ w

/-- `csvFieldInfo` of the source: one per non-ignored struct field.
`recordIndex` is a Go `int` with `-1` as the uninitialised sentinel. -/
structure CsvFieldInfo where
  header : String
  required : Bool
  recordIndex : Int
  structFieldIndex : Nat
deriving DecidableEq, Repr

/-- A field of the target record type: its kind and whether reflection can
set it (`reflect.Value.CanSet`, i.e. the field is exported). -/
structure GoField where
  kind : GoKind
  settable : Bool
deriving DecidableEq, Repr

/-- A field of the input struct as the builder sees it: name, type, the value
of its csv tag (`""` when absent, as `reflect.StructTag.Get` returns), and
settability. -/
structure StructField where
  name : String
  typ : GoKind
  tag : String
  settable : Bool
deriving DecidableEq, Repr

/-- `DecodeStruct` of the source.  `foundCols` holds references to entries of
`cols`; since the Go code stores shared pointers that `ParseHeader` mutates,
the references are modelled as indices into `cols`.  The time format is fixed
at the default `time.RFC3339` (no claim exercises `WithTimeFormat`). -/
structure DecodeStruct where
  cols : List CsvFieldInfo
  foundCols : List Nat
  recordType : List GoField
deriving DecidableEq, Repr

/-- `isSupportedField` of the source (first variant): whitelist of scalar
kinds, `time.Time` among structs, and recursion through pointers. -/
def isSupportedField : GoKind → Bool
  | .intK _ => true
  | .uintK _ => true
  | .floatK _ => true
  | .boolK => true
  | .stringK => true
  | .structK n => n == "time.Time"
  | .ptrK e => isSupportedField e
  | _ => false

/-- The descriptor a non-ignored field at position `i` contributes: header
name from the tag's first component (split on the configured separator) or
the field's own name, lowercased; required iff the second tag component is
`required`; `recordIndex` at the uninitialised sentinel. -/
def colOfField (sep : String) (f : StructField) (i : Nat) : CsvFieldInfo :=
  let pair : String × Bool :=
    if f.tag.length > 0 then
      let tagFields := f.tag.splitOn sep
      (tagFields.headD f.name,
       decide (1 < tagFields.length) && (tagFields.getD 1 "" == "required"))
    else (f.name, false)
  ⟨goToLower pair.1, pair.2, -1, i⟩

/-- The descriptor-building loop of `NewDecodeStruct`: for each field, panic
(`none`) on an unsupported type, then skip it if its tag is `"-"`, else emit
its `csvFieldInfo`.  Note the support check precedes the ignore check,
exactly as in the source. -/
def buildCols (sep : String) : List StructField → Nat → Option (List CsvFieldInfo)
  | [], _ => some []
  | f :: fs, i =>
    if !isSupportedField f.typ then none
    else if f.tag = "-" then buildCols sep fs (i + 1)
    else
      (buildCols sep fs (i + 1)).map (fun cs => colOfField sep f i :: cs)

/-- `NewDecodeStruct` of the source, over an already-reflected field list;
`sep` is the csv-tag field separator (default `","`).  The Go panic on an
unsupported field type is the `none` result. -/
def newDecodeStruct (fields : List StructField) (sep : String) : Option DecodeStruct :=
  (buildCols sep fields 0).map fun cs =>
    { cols := cs
      foundCols := []
      recordType := fields.map (fun f => ⟨f.typ, f.settable⟩) }

/-- `reset` of the source: set every `recordIndex` back to the sentinel and
clear `foundCols`. -/
def DecodeStruct.reset (r : DecodeStruct) : DecodeStruct :=
  { r with
    cols := r.cols.map (fun c => { c with recordIndex := -1 })
    foundCols := [] }

/-- Inner loop of `ParseHeader` over the descriptor list at header position
`i` (the descriptor's position in `cols` is `j`): every descriptor whose
header equals the normalised cell gets `recordIndex := i` and is appended (by
reference, i.e. by index) to the found list.  Returns the updated descriptor
list, the appended indices (in order), and whether any matched. -/
def bindCellAux : List CsvFieldInfo → String → Int → Nat →
    List CsvFieldInfo × List Nat × Bool
  | [], _, _, _ => ([], [], false)
  | f :: fs, norm, i, j =>
    let rest := bindCellAux fs norm i (j + 1)
    if f.header == norm then
      ({ f with recordIndex := i } :: rest.1, j :: rest.2.1, true)
    else
      (f :: rest.1, rest.2.1, rest.2.2)

/-- Outer loop of `ParseHeader` over the header cells, position `i` onward:
normalise (trim, lowercase) each cell, bind it, and fail immediately with
`Unexpected column %q` (the original cell) when nothing matched. -/
def parseHeaderLoop (cols : List CsvFieldInfo) (found : List Nat) (i : Nat) :
    List String → (List CsvFieldInfo × List Nat) × Option IncorrectFileErr
  | [] => ((cols, found), none)
  | cell :: rest =>
    let norm := goNormalize cell
    let step := bindCellAux cols norm (Int.ofNat i) 0
    if step.2.2 then
      parseHeaderLoop step.1 (found ++ step.2.1) (i + 1) rest
    else
      ((step.1, found ++ step.2.1),
       some (NewIncorrectFileErr ("Unexpected column " ++ goQuote cell)))

/-- The post-scan check of `ParseHeader`: first descriptor, in declaration
order, that is required and still unbound. -/
def findMissingRequired : List CsvFieldInfo → Option CsvFieldInfo
  | [] => none
  | f :: fs =>
    if f.required && f.recordIndex == -1 then some f
    else findMissingRequired fs

/-- `ParseHeader` of the source: reset, scan the header, then report the first
missing required column.  Returns the mutated receiver together with the
error value (Go mutates the receiver in place even on the failure paths). -/
def parseHeader (r : DecodeStruct) (header : List String) :
    DecodeStruct × Option IncorrectFileErr :=
  let r0 := r.reset
  let scan := parseHeaderLoop r0.cols [] 0 header
  let r1 := { r0 with cols := scan.1.1, foundCols := scan.1.2 }
  match scan.2 with
  | some err => (r1, some err)
  | none =>
    match findMissingRequired r1.cols with
    | some f =>
      (r1, some (NewIncorrectFileErr
        ("Mandatory column " ++ goQuote f.header ++ " is missing")))
    | none => (r1, none)

/-- `setField` of the source (first variant): returns the field's new value
together with the error, mirroring Go's in-place mutation — note that for a
pointer field the fresh zero allocation is installed *before* the recursive
coercion, so on failure the returned value is the pointer to the (partially
coerced) fresh target, while scalar kinds leave the old value untouched. -/
def setField : GoKind → GoValue → String → GoValue × Option DecodeErr
  | .ptrK k, _, s =>
    let inner := setField k (zeroValue k) s
    (.ptrV inner.1, inner.2)
  | .stringK, _, s => (.str s, none)
  | .boolK, v, s =>
    match goParseBool s with
    | some b => (.boolV b, none)
    | none => (v, some (.parseBoolErr s))
  | .intK w, v, s =>
    match goParseInt64 s with
    | some i => (.intV w (wrapInt w i), none)
    | none => (v, some (.parseIntErr s))
  | .uintK w, v, s =>
    match goParseUint64 s with
    | some n => (.uintV w (wrapUint w n), none)
    | none => (v, some (.parseUintErr s))
  | .floatK w, v, s =>
    if goParseFloatOk s then (.floatV w s, none)
    else (v, some (.parseFloatErr s))
  | .structK n, v, s =>
    if n = "time.Time" then
      if rfc3339Ok s then (.timeV s, none)
      else (v, some (.parseTimeErr s))
    else (v, some (.unsupportedTypeErr (.structK n)))
  | k, v, _ => (v, some (.unsupportedTypeErr k))

/-- One iteration of the `unmarshal` loop of the source, on the found-column
reference `j`: read the cell `record[c.RecordIndex]` (a bad index is a Go
panic — `indexPanic`), skip an empty cell of an optional column (`continue`),
fetch the destination field, skip it when `CanSet` is false, else coerce the
cell and write the result.  Returns the record's field values after the
iteration and the error if the iteration returned one. -/
def unmarshalStep (cols : List CsvFieldInfo) (rt : List GoField)
    (record : List String) (rec : List GoValue) (j : Nat) :
    List GoValue × Option DecodeErr :=
  match cols.get? j with
  | none => (rec, some .indexPanic)
  | some c =>
    match c.recordIndex with
    | .negSucc _ => (rec, some .indexPanic)
    | .ofNat n =>
      match record.get? n with
      | none => (rec, some .indexPanic)
      | some s =>
        if !c.required && s.length = 0 then (rec, none)
        else
          match rt.get? c.structFieldIndex, rec.get? c.structFieldIndex with
          | some ft, some fv =>
            if ft.settable then
              match setField ft.kind fv s with
              | (v', none) => (rec.set c.structFieldIndex v', none)
              | (v', some e) => (rec.set c.structFieldIndex v', some e)
            else (rec, none)
          | _, _ => (rec, some .indexPanic)

/-- `unmarshal` of the source, iterating the found-column references: the
first iteration that returns an error aborts the loop with that error,
keeping the writes already performed. -/
def unmarshalFields (cols : List CsvFieldInfo) (rt : List GoField)
    (record : List String) (rec : List GoValue) :
    List Nat → List GoValue × Option DecodeErr
  | [] => (rec, none)
  | j :: rest =>
    match unmarshalStep cols rt record rec j with
    | (rec', none) => unmarshalFields cols rt record rec' rest
    | (rec', some e) => (rec', some e)

/-- `UnmarshalCSV` of the source: the row must have exactly as many cells as
there are bound columns, the target's type must be the constructor's record
type, then the per-field loop runs.  The target instance is the pair of its
type `rt` and its current field values `rec`. -/
def unmarshalCSV (r : DecodeStruct) (record : List String)
    (rt : List GoField) (rec : List GoValue) : List GoValue × Option DecodeErr :=
  if record.length ≠ r.foundCols.length then (rec, some .rowShapeErr)
  else if rt ≠ r.recordType then (rec, some .typeMismatchErr)
  else unmarshalFields r.cols rt record rec r.foundCols

/-! ## Derived notions used to state the claims -/

/-- What one header cell does to one descriptor: bind it when the normalised
cell equals its header name. -/
def bindOne (norm : String) (i : Int) (f : CsvFieldInfo) : CsvFieldInfo :=
  if f.header == norm then { f with recordIndex := i } else f

/-- The per-descriptor part of `reset`. -/
def clearCol (f : CsvFieldInfo) : CsvFieldInfo :=
  { f with recordIndex := -1 }

/-- A header cell is recognised: its normalised (trimmed, lowercased) form
equals some descriptor's column name. -/
def headerMatches (cols : List CsvFieldInfo) (cell : String) : Bool :=
  cols.any (fun f => f.header == goNormalize cell)

/-- A descriptor has a matching cell somewhere in the header. -/
def colMatchedBy (header : List String) (f : CsvFieldInfo) : Bool :=
  header.any (fun cell => f.header == goNormalize cell)

/-- Cumulative effect of scanning the whole header on one descriptor,
starting at position `i`. -/
def scanMap : List String → Nat → CsvFieldInfo → CsvFieldInfo
  | [], _, f => f
  | cell :: rest, i, f =>
    scanMap rest (i + 1) (bindOne (goNormalize cell) (Int.ofNat i) f)

/-- Mathematical reading of an optionally-signed decimal numeral, with no
range restriction (the spec-side description of "the decimal textual
representation"). -/
def decInterp (s : String) : Option Int :=
  match s.data with
  | '+' :: rest => (decVal? rest).map (fun n => (n : Int))
  | '-' :: rest => (decVal? rest).map (fun n => -(n : Int))
  | cs => (decVal? cs).map (fun n => (n : Int))

/-- Strip every level of pointer indirection. -/
def stripPtrs : GoKind → GoKind
  | .ptrK e => stripPtrs e
  | k => k

/-- The supported base kinds named by the spec: any-width integers, floats,
bool, string, and the single recognised date/time struct. -/
def baseSupported : GoKind → Bool
  | .intK _ => true
  | .uintK _ => true
  | .floatK _ => true
  | .boolK => true
  | .stringK => true
  | .structK n => n == "time.Time"
  | _ => false

/-- Whether the destination field of a bound-column reference is settable
(out-of-range references are kept: both sides of the skipping equation panic
on them identically). -/
def boundSettable (cols : List CsvFieldInfo) (rt : List GoField) (j : Nat) : Bool :=
  match cols.get? j with
  | some c =>
    match rt.get? c.structFieldIndex with
    | some ft => ft.settable
    | none => true
  | none => true

/-! ## Lemmas about the header scan -/

theorem bindCellAux_fst (cols : List CsvFieldInfo) (norm : String) (i : Int) (j : Nat) :
    (bindCellAux cols norm i j).1 = cols.map (bindOne norm i) := by
  induction cols generalizing j with
  | nil => rfl
  | cons f fs ih =>
    simp only [bindCellAux, bindOne, List.map_cons]
    by_cases h : f.header == norm <;> simp [h, ih]

theorem bindCellAux_found (cols : List CsvFieldInfo) (norm : String) (i : Int) (j : Nat) :
    (bindCellAux cols norm i j).2.2 = cols.any (fun f => f.header == norm) := by
  induction cols generalizing j with
  | nil => rfl
  | cons f fs ih =>
    simp only [bindCellAux, List.any_cons]
    by_cases h : f.header == norm <;> simp [h, ih]

theorem bindOne_header (norm : String) (i : Int) (f : CsvFieldInfo) :
    (bindOne norm i f).header = f.header := by
  unfold bindOne; split <;> rfl

theorem headerMatches_map_bindOne (cols : List CsvFieldInfo) (norm cell : String) (i : Int) :
    headerMatches (cols.map (bindOne norm i)) cell = headerMatches cols cell := by
  induction cols with
  | nil => rfl
  | cons f fs ih =>
    simp only [headerMatches, List.map_cons, List.any_cons] at *
    rw [bindOne_header, ih]

theorem headerMatches_map_clearCol (cols : List CsvFieldInfo) (cell : String) :
    headerMatches (cols.map clearCol) cell = headerMatches cols cell := by
  induction cols with
  | nil => rfl
  | cons f fs ih =>
    simp only [headerMatches, List.map_cons, List.any_cons] at *
    rw [ih]
    rfl

theorem scanMap_header (hs : List String) (i : Nat) (f : CsvFieldInfo) :
    (scanMap hs i f).header = f.header := by
  induction hs generalizing i f with
  | nil => rfl
  | cons cell rest ih => rw [scanMap, ih, bindOne_header]

theorem scanMap_required (hs : List String) (i : Nat) (f : CsvFieldInfo) :
    (scanMap hs i f).required = f.required := by
  induction hs generalizing i f with
  | nil => rfl
  | cons cell rest ih =>
    rw [scanMap, ih]
    unfold bindOne
    split <;> rfl

theorem scanMap_structFieldIndex (hs : List String) (i : Nat) (f : CsvFieldInfo) :
    (scanMap hs i f).structFieldIndex = f.structFieldIndex := by
  induction hs generalizing i f with
  | nil => rfl
  | cons cell rest ih =>
    rw [scanMap, ih]
    unfold bindOne
    split <;> rfl

theorem colMatchedBy_congr (hs : List String) (f f' : CsvFieldInfo)
    (h : f.header = f'.header) : colMatchedBy hs f = colMatchedBy hs f' := by
  unfold colMatchedBy
  rw [h]

theorem scanMap_of_unmatched (hs : List String) (i : Nat) (f : CsvFieldInfo)
    (h : colMatchedBy hs f = false) : scanMap hs i f = f := by
  induction hs generalizing i f with
  | nil => rfl
  | cons cell rest ih =>
    simp only [colMatchedBy, List.any_cons, Bool.or_eq_false_iff] at h
    rw [scanMap]
    have hb : bindOne (goNormalize cell) (Int.ofNat i) f = f := by
      unfold bindOne
      simp [h.1]
    rw [hb]
    exact ih _ _ h.2

theorem scanMap_nonneg_mono (hs : List String) (i : Nat) (f : CsvFieldInfo)
    (h : 0 ≤ f.recordIndex) : 0 ≤ (scanMap hs i f).recordIndex := by
  induction hs generalizing i f with
  | nil => exact h
  | cons cell rest ih =>
    rw [scanMap]
    apply ih
    unfold bindOne
    split
    · exact Int.ofNat_nonneg i
    · exact h

theorem scanMap_of_matched (hs : List String) (i : Nat) (f : CsvFieldInfo)
    (h : colMatchedBy hs f = true) : 0 ≤ (scanMap hs i f).recordIndex := by
  induction hs generalizing i f with
  | nil => simp [colMatchedBy] at h
  | cons cell rest ih =>
    rw [scanMap]
    by_cases hm : (f.header == goNormalize cell) = true
    · apply scanMap_nonneg_mono
      unfold bindOne
      simp [hm]
    · have hb : bindOne (goNormalize cell) (Int.ofNat i) f = f := by
        unfold bindOne
        simp [hm]
      rw [hb]
      apply ih
      simp only [colMatchedBy, List.any_cons, Bool.or_eq_true_iff] at h
      rcases h with h | h
      · exact absurd h hm
      · exact h

theorem parseHeaderLoop_matched (hs : List String) (cols : List CsvFieldInfo)
    (found : List Nat) (i : Nat)
    (h : ∀ x ∈ hs, headerMatches cols x = true) :
    (parseHeaderLoop cols found i hs).1.1 = cols.map (scanMap hs i) ∧
      (parseHeaderLoop cols found i hs).2 = none := by
  induction hs generalizing cols found i with
  | nil =>
    constructor
    · show cols = cols.map (scanMap [] i)
      simp [scanMap]
    · rfl
  | cons cell rest ih =>
    have hcell : headerMatches cols cell = true := h cell (by simp)
    have hfound : (bindCellAux cols (goNormalize cell) (Int.ofNat i) 0).2.2 = true := by
      rw [bindCellAux_found]; exact hcell
    have hrest : ∀ x ∈ rest,
        headerMatches (cols.map (bindOne (goNormalize cell) (Int.ofNat i))) x = true := by
      intro x hx
      rw [headerMatches_map_bindOne]
      exact h x (by simp [hx])
    simp only [parseHeaderLoop, hfound, if_true, bindCellAux_fst]
    have := ih (cols.map (bindOne (goNormalize cell) (Int.ofNat i)))
      (found ++ (bindCellAux cols (goNormalize cell) (Int.ofNat i) 0).2.1) (i + 1) hrest
    rw [this.1, List.map_map]
    exact ⟨rfl, this.2⟩

theorem clearCol_bindOne (norm : String) (i : Int) (f : CsvFieldInfo) :
    clearCol (bindOne norm i f) = clearCol f := by
  unfold bindOne
  split <;> rfl

theorem parseHeaderLoop_clear (hs : List String) (cols : List CsvFieldInfo)
    (found : List Nat) (i : Nat) :
    ((parseHeaderLoop cols found i hs).1.1).map clearCol = cols.map clearCol := by
  induction hs generalizing cols found i with
  | nil => rfl
  | cons cell rest ih =>
    simp only [parseHeaderLoop, bindCellAux_fst]
    by_cases hfound : (bindCellAux cols (goNormalize cell) (Int.ofNat i) 0).2.2 = true
    · rw [if_pos hfound]
      rw [ih, List.map_map]
      congr 1
      funext f
      exact clearCol_bindOne _ _ f
    · rw [if_neg hfound]
      rw [List.map_map]
      congr 1
      funext f
      exact clearCol_bindOne _ _ f

theorem parseHeaderLoop_unexpected (pre : List String) (c : String) (rest : List String)
    (cols : List CsvFieldInfo) (found : List Nat) (i : Nat)
    (hpre : ∀ x ∈ pre, headerMatches cols x = true)
    (hc : headerMatches cols c = false) :
    (parseHeaderLoop cols found i (pre ++ c :: rest)).2 =
      some (NewIncorrectFileErr ("Unexpected column " ++ goQuote c)) := by
  induction pre generalizing cols found i with
  | nil =>
    have hfound : (bindCellAux cols (goNormalize c) (Int.ofNat i) 0).2.2 = false := by
      rw [bindCellAux_found]; exact hc
    simp only [List.nil_append, parseHeaderLoop, hfound, Bool.false_eq_true, if_false]
  | cons x pre ih =>
    have hx : headerMatches cols x = true := hpre x (by simp)
    have hfound : (bindCellAux cols (goNormalize x) (Int.ofNat i) 0).2.2 = true := by
      rw [bindCellAux_found]; exact hx
    simp only [List.cons_append, parseHeaderLoop, hfound, if_true, bindCellAux_fst]
    apply ih
    · intro y hy
      rw [headerMatches_map_bindOne]
      exact hpre y (by simp [hy])
    · rw [headerMatches_map_bindOne]
      exact hc

theorem findMissingRequired_scan (header : List String) (cols : List CsvFieldInfo) :
    findMissingRequired (cols.map (fun f => scanMap header 0 (clearCol f))) =
      (cols.find? (fun f => f.required && !(colMatchedBy header f))).map
        (fun f => scanMap header 0 (clearCol f)) := by
  induction cols with
  | nil => rfl
  | cons f fs ih =>
    have hclear : (clearCol f).header = f.header := rfl
    have hcond : ((scanMap header 0 (clearCol f)).required &&
        ((scanMap header 0 (clearCol f)).recordIndex == -1)) =
        (f.required && !(colMatchedBy header f)) := by
      rw [scanMap_required]
      show (f.required && _) = (f.required && _)
      congr 1
      by_cases h : colMatchedBy header f = true
      · have h' : colMatchedBy header (clearCol f) = true := by
          rw [colMatchedBy_congr header (clearCol f) f hclear]; exact h
        have := scanMap_of_matched header 0 (clearCol f) h'
        have hne : (scanMap header 0 (clearCol f)).recordIndex ≠ -1 := by omega
        simp [hne, h]
      · have h' : colMatchedBy header (clearCol f) = false := by
          rw [colMatchedBy_congr header (clearCol f) f hclear]
          exact Bool.not_eq_true _ ▸ (by simpa using h)
        rw [scanMap_of_unmatched header 0 (clearCol f) h']
        have : (clearCol f).recordIndex = -1 := rfl
        simp [this, Bool.not_eq_true _ ▸ (by simpa using h : colMatchedBy header f = false)]
    simp only [List.map_cons, findMissingRequired, List.find?, hcond]
    by_cases hp : (f.required && !(colMatchedBy header f)) = true
    · simp [hp]
    · simp only [hp, Bool.false_eq_true, if_false, cond_false]
      rw [ih]

theorem reset_cols (r : DecodeStruct) : r.reset.cols = r.cols.map clearCol := rfl

theorem parseHeader_fst (r : DecodeStruct) (header : List String) :
    (parseHeader r header).1 =
      { r.reset with
        cols := (parseHeaderLoop r.reset.cols [] 0 header).1.1
        foundCols := (parseHeaderLoop r.reset.cols [] 0 header).1.2 } := by
  simp only [parseHeader]
  split
  · rfl
  · split <;> rfl

theorem parseHeader_reset_congr (x y : DecodeStruct) (header : List String)
    (h : x.reset = y.reset) : parseHeader x header = parseHeader y header := by
  unfold parseHeader
  rw [h]

/-- A concrete schema for witnesses: the spec's scenario schema
`{Name string required, Age int required, Score float64}` after descriptor
building. -/
def sampleDecoder : DecodeStruct :=
  { cols :=
      [⟨"name", true, -1, 0⟩, ⟨"age", true, -1, 1⟩, ⟨"score", false, -1, 2⟩]
    foundCols := []
    recordType := [⟨.stringK, true⟩, ⟨.intK 64, true⟩, ⟨.floatK 64, true⟩] }

/-- **C1.** If the normalised (trimmed, lowercased) header cell at some
position matches no descriptor's column name while every earlier cell matches
one, then `ParseHeader` fails with an `IncorrectFileErr` whose message is
`Unexpected column <original cell>` (`%q`-quoted original, unnormalised
text), wherever the unknown column sits and whatever the later cells are
(they are never examined: the result does not depend on `rest`). -/
theorem claim1_unexpected_column (r : DecodeStruct) (pre : List String) (c : String)
    (rest : List String)
    (hpre : ∀ x ∈ pre, headerMatches r.cols x = true)
    (hc : headerMatches r.cols c = false) :
    (parseHeader r (pre ++ c :: rest)).2 =
      some (NewIncorrectFileErr ("Unexpected column " ++ goQuote c)) := by
  have hpre' : ∀ x ∈ pre, headerMatches r.reset.cols x = true := by
    intro x hx
    rw [reset_cols, headerMatches_map_clearCol]
    exact hpre x hx
  have hc' : headerMatches r.reset.cols c = false := by
    rw [reset_cols, headerMatches_map_clearCol]
    exact hc
  have herr := parseHeaderLoop_unexpected pre c rest r.reset.cols [] 0 hpre' hc'
  simp only [parseHeader]
  split
  · next heq =>
    rw [herr] at heq
    simpa using heq.symm
  · next heq =>
    rw [herr] at heq
    exact absurd heq (by simp)

theorem claim1_unexpected_column_witness :
    (parseHeader sampleDecoder (["Name"] ++ "Extra" :: ["Age"])).2 =
      some (NewIncorrectFileErr ("Unexpected column " ++ goQuote "Extra")) :=
  claim1_unexpected_column sampleDecoder ["Name"] "Extra" ["Age"]
    (by decide) (by decide)

theorem reset_eq (r : DecodeStruct) :
    r.reset = ⟨r.cols.map clearCol, [], r.recordType⟩ := rfl

/-- **C2.** For a header whose every cell is recognised, `ParseHeader` returns
exactly the image of the first descriptor (in declaration order) that is
required but matched by no header cell, with the message
`Mandatory column <columnName> is missing`; in particular it fails iff such a
descriptor exists, and a header omitting only non-required columns
reconciles successfully. -/
theorem claim2_missing_required (r : DecodeStruct) (header : List String)
    (hall : ∀ cell ∈ header, headerMatches r.cols cell = true) :
    (parseHeader r header).2 =
      (r.cols.find? (fun f => f.required && !(colMatchedBy header f))).map
        (fun f => NewIncorrectFileErr
          ("Mandatory column " ++ goQuote f.header ++ " is missing")) := by
  have hall' : ∀ cell ∈ header, headerMatches r.reset.cols cell = true := by
    intro x hx
    rw [reset_cols, headerMatches_map_clearCol]
    exact hall x hx
  obtain ⟨hcols, herr⟩ := parseHeaderLoop_matched header r.reset.cols [] 0 hall'
  have hc2 : (parseHeaderLoop r.reset.cols [] 0 header).1.1 =
      r.cols.map (fun f => scanMap header 0 (clearCol f)) := by
    rw [hcols, reset_cols, List.map_map]
    rfl
  simp only [parseHeader]
  split
  · next heq =>
    rw [herr] at heq
    exact Option.noConfusion heq
  · next heq =>
    show (match findMissingRequired (parseHeaderLoop r.reset.cols [] 0 header).1.1 with
      | some f => (_, some (NewIncorrectFileErr
          ("Mandatory column " ++ goQuote f.header ++ " is missing")))
      | none => (_, none)).2 = _
    rw [hc2, findMissingRequired_scan]
    cases hfind : r.cols.find? (fun f => f.required && !(colMatchedBy header f)) with
    | none => simp
    | some f =>
      simp only [Option.map_some']
      rw [scanMap_header]
      rfl

theorem claim2_missing_required_witness :
    (parseHeader sampleDecoder ["Name"]).2 =
      some (NewIncorrectFileErr "Mandatory column \"age\" is missing") :=
  (claim2_missing_required sampleDecoder ["Name"] (by decide)).trans (by decide)

/-- **C5.** Reconciliation starts from a clean slate: `reset` clears the
bound-column list and sets every descriptor's `recordIndex` back to the `-1`
sentinel, and consequently running `ParseHeader` after any earlier
`ParseHeader` call (whatever its header or outcome) gives exactly the state
and result of running it on the original decoder — no binding from the first
call leaks into the second. -/
theorem claim5_clean_slate (r : DecodeStruct) (h1 h2 : List String) :
    parseHeader ((parseHeader r h1).1) h2 = parseHeader r h2 ∧
      r.reset.foundCols = [] ∧ ∀ c ∈ r.reset.cols, c.recordIndex = -1 := by
  refine ⟨?_, rfl, ?_⟩
  · apply parseHeader_reset_congr
    rw [parseHeader_fst]
    rw [reset_eq, reset_eq]
    show (⟨((parseHeaderLoop r.reset.cols [] 0 h1).1.1).map clearCol, [],
        r.reset.recordType⟩ : DecodeStruct) = ⟨r.cols.map clearCol, [], r.recordType⟩
    rw [parseHeaderLoop_clear, reset_cols, List.map_map]
    have : clearCol ∘ clearCol = clearCol := by
      funext f
      rfl
    rw [this]
    rfl
  · intro c hc
    rw [reset_cols] at hc
    obtain ⟨f, _, rfl⟩ := List.mem_map.mp hc
    rfl

theorem claim5_clean_slate_witness :
    parseHeader ((parseHeader sampleDecoder ["Name", "Age"]).1) ["Age", "Name"] =
        parseHeader sampleDecoder ["Age", "Name"] ∧
      sampleDecoder.reset.foundCols = [] ∧
      ∀ c ∈ sampleDecoder.reset.cols, c.recordIndex = -1 :=
  claim5_clean_slate sampleDecoder ["Name", "Age"] ["Age", "Name"]



/-! ## Lemmas about row decoding -/

theorem setField_ne_rowShape (k : GoKind) (v : GoValue) (s : String) :
    (setField k v s).2 ≠ some .rowShapeErr ∧ (setField k v s).2 ≠ some .typeMismatchErr := by
  induction k generalizing v with
  | ptrK e ih =>
    simp only [setField]
    exact ih (zeroValue e)
  | stringK => simp [setField]
  | boolK =>
    simp only [setField]
    cases goParseBool s <;> simp
  | intK w =>
    simp only [setField]
    cases goParseInt64 s <;> simp
  | uintK w =>
    simp only [setField]
    cases goParseUint64 s <;> simp
  | floatK w =>
    simp only [setField]
    split <;> simp
  | structK n =>
    simp only [setField]
    split
    · split <;> simp
    · simp
  | mapK => simp [setField]
  | sliceK => simp [setField]
  | arrayK => simp [setField]
  | chanK => simp [setField]

theorem unmarshalStep_ne_rowShape (cols : List CsvFieldInfo) (rt : List GoField)
    (record : List String) (rec : List GoValue) (j : Nat) :
    (unmarshalStep cols rt record rec j).2 ≠ some .rowShapeErr ∧
      (unmarshalStep cols rt record rec j).2 ≠ some .typeMismatchErr := by
  unfold unmarshalStep
  split
  · simp
  · split
    · simp
    · split
      · simp
      · rename_i s hs
        split
        · simp
        · split
          · rename_i ft fv hft hfv
            split
            · split
              · simp
              · rename_i v' e heq
                have h := setField_ne_rowShape ft.kind fv s
                rw [heq] at h
                simpa using h
            · simp
          · simp

theorem unmarshalFields_ne_rowShape (cols : List CsvFieldInfo) (rt : List GoField)
    (record : List String) (js : List Nat) (rec : List GoValue) :
    (unmarshalFields cols rt record rec js).2 ≠ some .rowShapeErr ∧
      (unmarshalFields cols rt record rec js).2 ≠ some .typeMismatchErr := by
  induction js generalizing rec with
  | nil => simp [unmarshalFields]
  | cons j rest ih =>
    simp only [unmarshalFields]
    rcases hstep : unmarshalStep cols rt record rec j with ⟨rec', e⟩
    cases e with
    | none => exact ih rec'
    | some e' =>
      have := unmarshalStep_ne_rowShape cols rt record rec j
      rw [hstep] at this
      simp only at this ⊢
      exact ⟨by simpa using this.1, by simpa using this.2⟩

theorem unmarshalFields_append (cols : List CsvFieldInfo) (rt : List GoField)
    (record : List String) (as bs : List Nat) (rec : List GoValue) :
    unmarshalFields cols rt record rec (as ++ bs) =
      match unmarshalFields cols rt record rec as with
      | (rec₁, none) => unmarshalFields cols rt record rec₁ bs
      | (rec₁, some e) => (rec₁, some e) := by
  induction as generalizing rec with
  | nil => rfl
  | cons j rest ih =>
    simp only [List.cons_append, unmarshalFields]
    rcases hstep : unmarshalStep cols rt record rec j with ⟨rec', e⟩
    cases e with
    | none => exact ih rec'
    | some e' => rfl

theorem unmarshalStep_fst (cols : List CsvFieldInfo) (rt : List GoField)
    (record : List String) (rec : List GoValue) (j : Nat) :
    (unmarshalStep cols rt record rec j).1 = rec ∨
      ∃ c v', cols.get? j = some c ∧
        (unmarshalStep cols rt record rec j).1 = rec.set c.structFieldIndex v' := by
  unfold unmarshalStep
  split
  · exact Or.inl rfl
  · next c hc =>
    split
    · exact Or.inl rfl
    · split
      · exact Or.inl rfl
      · split
        · exact Or.inl rfl
        · split
          · next ft fv =>
            split
            · split
              · next v' heq => exact Or.inr ⟨c, v', hc, rfl⟩
              · next v' e heq => exact Or.inr ⟨c, v', hc, rfl⟩
            · exact Or.inl rfl
          · exact Or.inl rfl

theorem unmarshalStep_length (cols : List CsvFieldInfo) (rt : List GoField)
    (record : List String) (rec : List GoValue) (j : Nat) :
    (unmarshalStep cols rt record rec j).1.length = rec.length := by
  rcases unmarshalStep_fst cols rt record rec j with h | ⟨c, v', _, h⟩
  · rw [h]
  · rw [h, List.length_set]

/-- **C3.** An empty cell bound to an optional (`required = false`) column is
a no-op: the iteration leaves every destination field untouched and decoding
continues with the next bound column — no coercion of the empty string is
attempted.  For a required field the empty cell goes through coercion: a
string field receives the literal empty string, while int, uint, float, bool
and time kinds all fail with their parse error. -/
theorem claim3_empty_cells (cols : List CsvFieldInfo) (rt : List GoField)
    (record : List String) (rec : List GoValue) (j n : Nat) (rest : List Nat)
    (c : CsvFieldInfo)
    (hc : cols.get? j = some c) (hreq : c.required = false)
    (hri : c.recordIndex = Int.ofNat n) (hcell : record.get? n = some "") :
    unmarshalFields cols rt record rec (j :: rest) =
        unmarshalFields cols rt record rec rest ∧
      (∀ v : GoValue, setField .stringK v "" = (.str "", none)) ∧
      (∀ w : Nat, ∀ v : GoValue, (setField (.intK w) v "").2 = some (.parseIntErr "")) ∧
      (∀ w : Nat, ∀ v : GoValue, (setField (.uintK w) v "").2 = some (.parseUintErr "")) ∧
      (∀ w : Nat, ∀ v : GoValue, (setField (.floatK w) v "").2 = some (.parseFloatErr "")) ∧
      (∀ v : GoValue, (setField .boolK v "").2 = some (.parseBoolErr "")) ∧
      (∀ v : GoValue, (setField (.structK "time.Time") v "").2 = some (.parseTimeErr "")) := by
  refine ⟨?_, ?_, ?_, ?_, ?_, ?_, ?_⟩
  · have hstep : unmarshalStep cols rt record rec j = (rec, none) := by
      unfold unmarshalStep
      rw [List.get?_eq_getElem?] at hc hcell
      simp [hc, hri, hcell, hreq]
    simp [unmarshalFields, hstep]
  · intro v
    rfl
  · intro w v
    have h : goParseInt64 "" = none := by decide
    simp [setField, h]
  · intro w v
    have h : goParseUint64 "" = none := by decide
    simp [setField, h]
  · intro w v
    have h : goParseFloatOk "" = false := by decide
    simp [setField, h]
  · intro v
    have h : goParseBool "" = none := by decide
    simp [setField, h]
  · intro v
    have h : rfc3339Ok "" = false := by decide
    simp [setField, h]

theorem claim3_empty_cells_witness :
    (unmarshalFields [⟨"score", false, 0, 2⟩] [] [""] [.str "keep"] [0] =
        unmarshalFields [⟨"score", false, 0, 2⟩] [] [""] [.str "keep"] []) ∧
      (∀ v : GoValue, setField .stringK v "" = (.str "", none)) ∧
      (∀ w : Nat, ∀ v : GoValue, (setField (.intK w) v "").2 = some (.parseIntErr "")) ∧
      (∀ w : Nat, ∀ v : GoValue, (setField (.uintK w) v "").2 = some (.parseUintErr "")) ∧
      (∀ w : Nat, ∀ v : GoValue, (setField (.floatK w) v "").2 = some (.parseFloatErr "")) ∧
      (∀ v : GoValue, (setField .boolK v "").2 = some (.parseBoolErr "")) ∧
      (∀ v : GoValue, (setField (.structK "time.Time") v "").2 = some (.parseTimeErr "")) :=
  claim3_empty_cells [⟨"score", false, 0, 2⟩] [] [""] [.str "keep"] 0 0 []
    ⟨"score", false, 0, 2⟩ rfl rfl rfl rfl

/-- **C4.** After reconciliation, `UnmarshalCSV` fails with the row-shape
error iff the row's cell count differs from the number of recorded
descriptor-to-position bindings (`foundCols`, not the original header width);
when the counts agree (and the target's type matches) it proceeds to the
per-field coercion loop, which can never produce the row-shape error. -/
theorem claim4_row_shape (r : DecodeStruct) (record : List String)
    (rt : List GoField) (rec : List GoValue) :
    ((unmarshalCSV r record rt rec).2 = some .rowShapeErr ↔
        record.length ≠ r.foundCols.length) ∧
      (record.length = r.foundCols.length → rt = r.recordType →
        unmarshalCSV r record rt rec =
          unmarshalFields r.cols rt record rec r.foundCols) := by
  by_cases hlen : record.length ≠ r.foundCols.length
  · rw [unmarshalCSV, if_pos hlen]
    exact ⟨⟨fun _ => hlen, fun _ => rfl⟩, fun h _ => absurd h hlen⟩
  · have hlen' : record.length = r.foundCols.length := not_not.mp hlen
    rw [unmarshalCSV, if_neg hlen]
    by_cases hty : rt = r.recordType
    · rw [if_neg (not_not_intro hty)]
      refine ⟨⟨fun h => ?_, fun h => absurd hlen' h⟩, fun _ _ => rfl⟩
      exact absurd h (unmarshalFields_ne_rowShape r.cols rt record r.foundCols rec).1
    · rw [if_pos hty]
      refine ⟨⟨fun h => ?_, fun h => absurd hlen' h⟩, fun _ h => absurd h hty⟩
      simp at h

theorem claim4_row_shape_witness :
    (unmarshalCSV
        ⟨[⟨"name", true, 0, 0⟩, ⟨"age", true, 1, 1⟩, ⟨"score", false, -1, 2⟩],
          [0, 1], [⟨.stringK, true⟩, ⟨.intK 64, true⟩, ⟨.floatK 64, true⟩]⟩
        ["xxx"] [⟨.stringK, true⟩, ⟨.intK 64, true⟩, ⟨.floatK 64, true⟩]
        [.str "", .intV 64 0, .floatV 64 "0"]).2 = some .rowShapeErr :=
  (claim4_row_shape _ _ _ _).1.mpr (by decide)

/-- **C8 (amended).** The first coercion failure aborts the row with exactly
the underlying parse error of the first failing bound column: the bound
columns after it are never processed (the result does not depend on `post`),
every field other than the failing column's destination keeps exactly the
value it had after the preceding writes (no rollback), and the failing
column's own destination is untouched for scalar kinds but, for a pointer
field, may already hold the freshly allocated zero target installed before
the inner coercion failed. -/
theorem claim8_first_failure (cols : List CsvFieldInfo) (rt : List GoField)
    (record : List String) (pre : List Nat) (j : Nat) (post : List Nat)
    (rec rec₁ rec₂ : List GoValue) (e : DecodeErr)
    (hpre : unmarshalFields cols rt record rec pre = (rec₁, none))
    (hfail : unmarshalFields cols rt record rec₁ [j] = (rec₂, some e)) :
    unmarshalFields cols rt record rec (pre ++ j :: post) = (rec₂, some e) ∧
      ∀ i, (∀ c, cols.get? j = some c → i ≠ c.structFieldIndex) →
        rec₂.get? i = rec₁.get? i := by
  have hstep : unmarshalStep cols rt record rec₁ j = (rec₂, some e) := by
    rcases hs : unmarshalStep cols rt record rec₁ j with ⟨rec', e'⟩
    rw [unmarshalFields, hs] at hfail
    cases e' with
    | none => simp [unmarshalFields] at hfail
    | some e'' =>
      simp only [Prod.mk.injEq, Option.some.injEq] at hfail
      rw [hfail.1, hfail.2]
  constructor
  · rw [unmarshalFields_append, hpre]
    show unmarshalFields cols rt record rec₁ (j :: post) = _
    rw [unmarshalFields, hstep]
  · intro i hi
    rcases unmarshalStep_fst cols rt record rec₁ j with h | ⟨c, v', hc, h⟩
    · rw [hstep] at h
      have h' : rec₂ = rec₁ := h
      rw [h']
    · rw [hstep] at h
      have h' : rec₂ = rec₁.set c.structFieldIndex v' := h
      rw [h']
      simp only [List.get?_eq_getElem?]
      exact List.getElem?_set_ne (Ne.symm (hi c hc))

theorem claim8_first_failure_witness :
    unmarshalFields
        [⟨"name", true, 0, 0⟩, ⟨"age", true, 1, 1⟩]
        [⟨.stringK, true⟩, ⟨.intK 64, true⟩]
        ["Alice", "not-a-number"]
        [.str "", .intV 64 0] ([0] ++ 1 :: []) =
      ([.str "Alice", .intV 64 0], some (.parseIntErr "not-a-number")) :=
  (claim8_first_failure
    [⟨"name", true, 0, 0⟩, ⟨"age", true, 1, 1⟩]
    [⟨.stringK, true⟩, ⟨.intK 64, true⟩]
    ["Alice", "not-a-number"]
    [0] 1 [] [.str "", .intV 64 0] [.str "Alice", .intV 64 0]
    [.str "Alice", .intV 64 0] (.parseIntErr "not-a-number")
    (by decide) (by decide)).1

/-- **C8, counterexample to the claim as stated.** The claim says the field
at the failing column is left untouched.  For a pointer field the source
installs the freshly allocated zero target *before* the inner coercion runs,
so when the coercion fails the field has changed from `nil` to a pointer at
the zero value: decoding `"x"` into a `*int64` field fails with the int parse
error, yet the field is now `ptrV (intV 64 0)` instead of the original
`ptrNil`. -/
theorem claim8_counterexample :
    unmarshalFields [⟨"a", true, 0, 0⟩] [⟨.ptrK (.intK 64), true⟩] ["x"]
        [.ptrNil] [0] =
      ([.ptrV (.intV 64 0)], some (.parseIntErr "x")) ∧
      (GoValue.ptrV (.intV 64 0) ≠ .ptrNil) := by
  decide

/-- **C10.** A bound column whose destination struct field is not settable
(`CanSet` false, i.e. unexported) is silently skipped: running the decode
loop equals running it on just the settable bound columns, so the cell is
neither coerced nor written, produces no error, and only settable fields can
cause a coercion failure.  (The index-validity hypotheses rule out the Go
panics that would hit both runs identically anyway.) -/
theorem claim10_unsettable_skipped (cols : List CsvFieldInfo) (rt : List GoField)
    (record : List String) (js : List Nat) (rec : List GoValue)
    (hlen : rec.length = rt.length)
    (hj : ∀ j ∈ js, ∀ c, cols.get? j = some c →
        (∃ n : Nat, c.recordIndex = Int.ofNat n ∧ n < record.length) ∧
        c.structFieldIndex < rt.length) :
    unmarshalFields cols rt record rec js =
      unmarshalFields cols rt record rec (js.filter (boundSettable cols rt)) := by
  induction js generalizing rec with
  | nil => rfl
  | cons j rest ih =>
    have hjrest : ∀ j' ∈ rest, ∀ c, cols.get? j' = some c →
        (∃ n : Nat, c.recordIndex = Int.ofNat n ∧ n < record.length) ∧
        c.structFieldIndex < rt.length :=
      fun j' hj' => hj j' (List.mem_cons_of_mem _ hj')
    by_cases hb : boundSettable cols rt j = true
    · rw [List.filter_cons_of_pos hb]
      simp only [unmarshalFields]
      rcases hstep : unmarshalStep cols rt record rec j with ⟨rec', e⟩
      cases e with
      | none =>
        have hlen' : rec'.length = rt.length := by
          have := unmarshalStep_length cols rt record rec j
          rw [hstep] at this
          simpa [hlen] using this
        exact ih rec' hlen' hjrest
      | some e' => rfl
    · have hb' : boundSettable cols rt j = false := by simpa using hb
      cases hc : cols.get? j with
      | none =>
        unfold boundSettable at hb'
        rw [hc] at hb'
        exact Bool.noConfusion hb'
      | some c =>
        cases hft : rt.get? c.structFieldIndex with
        | none =>
          unfold boundSettable at hb'
          rw [hc] at hb'
          dsimp only at hb'
          rw [hft] at hb'
          exact Bool.noConfusion hb'
        | some ft =>
          have hset : ft.settable = false := by
            unfold boundSettable at hb'
            rw [hc] at hb'
            dsimp only at hb'
            rw [hft] at hb'
            exact hb'
          obtain ⟨⟨n, hri, hn⟩, hsfi⟩ := hj j (by simp) c hc
          obtain ⟨s, hs⟩ : ∃ s, record.get? n = some s := by
            cases hg : record.get? n with
            | none => exact absurd (List.get?_eq_none.mp hg) (by omega)
            | some a => exact ⟨a, rfl⟩
          obtain ⟨fv, hfv⟩ : ∃ fv, rec.get? c.structFieldIndex = some fv := by
            cases hg : rec.get? c.structFieldIndex with
            | none => exact absurd (List.get?_eq_none.mp hg) (by omega)
            | some a => exact ⟨a, rfl⟩
          have hstep : unmarshalStep cols rt record rec j = (rec, none) := by
            unfold unmarshalStep
            rw [List.get?_eq_getElem?] at hc hs hfv hft
            simp [hc, hri, hs, hft, hfv, hset]
          rw [List.filter_cons_of_neg (by simpa using hb)]
          simp only [unmarshalFields, hstep]
          exact ih rec hlen hjrest

theorem claim10_unsettable_skipped_witness :
    unmarshalFields [⟨"a", true, 0, 0⟩] [⟨.intK 64, false⟩] ["garbage"]
        [.intV 64 7] [0] =
      unmarshalFields [⟨"a", true, 0, 0⟩] [⟨.intK 64, false⟩] ["garbage"]
        [.intV 64 7] ([0].filter (boundSettable [⟨"a", true, 0, 0⟩] [⟨.intK 64, false⟩])) :=
  claim10_unsettable_skipped [⟨"a", true, 0, 0⟩] [⟨.intK 64, false⟩] ["garbage"]
    [0] [.intV 64 7] (by decide)
    (by
      intro j hj c hc
      simp only [List.mem_singleton] at hj
      subst hj
      simp only [List.get?] at hc
      cases hc
      exact ⟨⟨0, rfl, by decide⟩, by decide⟩)

/-! ## Lemmas about schema building -/

theorem isSupportedField_eq_base (k : GoKind) :
    isSupportedField k = baseSupported (stripPtrs k) := by
  induction k with
  | ptrK e ih => simpa [isSupportedField, stripPtrs] using ih
  | stringK => rfl
  | boolK => rfl
  | intK w => rfl
  | uintK w => rfl
  | floatK w => rfl
  | structK n => rfl
  | mapK => rfl
  | sliceK => rfl
  | arrayK => rfl
  | chanK => rfl

theorem buildCols_isSome (sep : String) (fields : List StructField) (i : Nat) :
    (buildCols sep fields i).isSome = fields.all (fun f => isSupportedField f.typ) := by
  induction fields generalizing i with
  | nil => rfl
  | cons f fs ih =>
    unfold buildCols
    by_cases hsup : isSupportedField f.typ = true
    · by_cases htag : f.tag = "-"
      · simp [hsup, htag, ih]
      · simp [hsup, htag, ih]
    · simp only [List.all_cons]
      have hsup' : isSupportedField f.typ = false := by simpa using hsup
      simp [hsup']

theorem buildCols_spec (sep : String) (fields : List StructField) (i : Nat)
    (hsup : ∀ f ∈ fields, isSupportedField f.typ = true) :
    ∃ cs, buildCols sep fields i = some cs ∧
      ∀ c ∈ cs, i ≤ c.structFieldIndex ∧
        ∃ f, fields.get? (c.structFieldIndex - i) = some f ∧ f.tag ≠ "-" := by
  induction fields generalizing i with
  | nil => exact ⟨[], rfl, by simp⟩
  | cons f fs ih =>
    have hf : isSupportedField f.typ = true := hsup f (by simp)
    obtain ⟨cs, hcs, hprop⟩ := ih (i + 1) (fun g hg => hsup g (by simp [hg]))
    by_cases htag : f.tag = "-"
    · refine ⟨cs, by simp [buildCols, hf, htag, hcs], ?_⟩
      intro c hc
      obtain ⟨hge, g, hget, hgtag⟩ := hprop c hc
      refine ⟨by omega, g, ?_, hgtag⟩
      have hsub : c.structFieldIndex - i = (c.structFieldIndex - (i + 1)) + 1 := by
        omega
      rw [hsub]
      exact hget
    · refine ⟨colOfField sep f i :: cs, by simp [buildCols, hf, htag, hcs], ?_⟩
      intro c hc
      rcases List.mem_cons.mp hc with rfl | hc'
      · refine ⟨le_refl _, f, ?_, htag⟩
        have : (colOfField sep f i).structFieldIndex - i = 0 := by
          show i - i = 0
          omega
        rw [this]
        rfl
      · obtain ⟨hge, g, hget, hgtag⟩ := hprop c hc'
        refine ⟨by omega, g, ?_, hgtag⟩
        have hsub : c.structFieldIndex - i = (c.structFieldIndex - (i + 1)) + 1 := by
          omega
        rw [hsub]
        exact hget

/-- **C7 (amended).** Schema building fails (a construction-time panic) iff
some field of the shape — ignored or not, since the support check precedes
the ignore-tag check — has a declared type that, after unwrapping *any*
number of pointer levels, is not one of the supported base kinds (integers
and unsigned integers of any width, floats, bool, string, or the recognised
`time.Time` struct); maps, slices, arrays and other structs are rejected,
but multi-level indirection such as `**int` is accepted at build time. -/
theorem claim7_supported_types (fields : List StructField) (sep : String) :
    (newDecodeStruct fields sep).isSome = true ↔
      ∀ f ∈ fields, baseSupported (stripPtrs f.typ) = true := by
  unfold newDecodeStruct
  rw [Option.isSome_map']
  rw [buildCols_isSome]
  simp only [List.all_eq_true, isSupportedField_eq_base]

theorem claim7_supported_types_witness :
    (newDecodeStruct [⟨"Name", .stringK, "", true⟩] ",").isSome = true :=
  (claim7_supported_types [⟨"Name", .stringK, "", true⟩] ",").mpr (by decide)

/-- **C7, counterexample to the claim as stated.** The claim limits support
to at most one level of indirection and to non-ignored fields.  But the
source's `isSupportedField` recurses through every pointer level, so a
`**int64` field builds successfully; and the support check runs before the
ignore check, so an ignored (`"-"`-tagged) map field still fails the build
even though it is ignored. -/
theorem claim7_counterexample :
    (newDecodeStruct [⟨"A", .ptrK (.ptrK (.intK 64)), "", true⟩] ",").isSome = true ∧
      newDecodeStruct [⟨"B", .mapK, "-", true⟩] "," = none := by
  decide

/-- **C9 (amended).** A field tagged `"-"` never becomes a descriptor: when
every field's type is supported the build succeeds and every produced
descriptor originates from a field whose tag is not `"-"`.  However the skip
does *not* precede type validation — the support check runs first, so an
ignored field with an unsupported type still fails construction. -/
theorem claim9_ignored_fields (fields : List StructField) (sep : String)
    (hsup : ∀ f ∈ fields, isSupportedField f.typ = true) :
    ∃ d, newDecodeStruct fields sep = some d ∧
      ∀ c ∈ d.cols, ∃ f, fields.get? c.structFieldIndex = some f ∧ f.tag ≠ "-" := by
  obtain ⟨cs, hcs, hprop⟩ := buildCols_spec sep fields 0 hsup
  refine ⟨⟨cs, [], fields.map (fun f => ⟨f.typ, f.settable⟩)⟩, ?_, ?_⟩
  · unfold newDecodeStruct
    rw [hcs]
    rfl
  · intro c hc
    obtain ⟨hge, g, hget, hgtag⟩ := hprop c hc
    exact ⟨g, by simpa using hget, hgtag⟩

theorem claim9_ignored_fields_witness :
    ∃ d, newDecodeStruct
        [⟨"Ignored", .stringK, "-", true⟩, ⟨"Name", .stringK, "", true⟩] "," = some d ∧
      ∀ c ∈ d.cols, ∃ f,
        ([⟨"Ignored", .stringK, "-", true⟩, ⟨"Name", .stringK, "", true⟩] :
            List StructField).get? c.structFieldIndex = some f ∧ f.tag ≠ "-" :=
  claim9_ignored_fields
    [⟨"Ignored", .stringK, "-", true⟩, ⟨"Name", .stringK, "", true⟩] "," (by decide)

/-- **C9, counterexample to the claim as stated.** The claim says an ignored
field can never cause a construction-time failure.  But `NewDecodeStruct`
checks `isSupportedField` *before* the `"-"`-tag skip, so a map-typed field
tagged `"-"` panics the build. -/
theorem claim9_counterexample :
    newDecodeStruct [⟨"A", .mapK, "-", true⟩] "," = none := by
  decide

theorem goParseInt64_range (s : String) (i : Int) (h : goParseInt64 s = some i) :
    -(2 ^ 63) ≤ i ∧ i < 2 ^ 63 := by
  unfold goParseInt64 at h
  split at h
  · split at h
    · next n heq =>
      split at h
      · next hcond =>
        have hi := Option.some.inj h
        omega
      · exact Option.noConfusion h
    · exact Option.noConfusion h
  · split at h
    · next n heq =>
      split at h
      · next hcond =>
        have hi := Option.some.inj h
        omega
      · exact Option.noConfusion h
    · exact Option.noConfusion h
  · split at h
    · next n heq =>
      split at h
      · next hcond =>
        have hi := Option.some.inj h
        omega
      · exact Option.noConfusion h
    · exact Option.noConfusion h

/-- **C6 (amended).** Int/Uint coercion parses the decimal text at the widest
native width (64 bits): whether it fails is independent of the field's
declared width, it fails exactly on non-numeric text or on values outside the
64-bit range, and an accepted value — necessarily within the signed/unsigned
64-bit range — is then narrowed to the declared width by two's-complement
truncation with no further range check, so a value exceeding the declared
narrower width is stored truncated instead of producing an error. -/
theorem claim6_int_uint_coercion (w w' : Nat) (v v' : GoValue) (s : String) :
    ((setField (.intK w) v s).2 = (setField (.intK w') v' s).2) ∧
    ((setField (.uintK w) v s).2 = (setField (.uintK w') v' s).2) ∧
    (∀ i, goParseInt64 s = some i →
        setField (.intK w) v s = (.intV w (wrapInt w i), none) ∧
          -(2 ^ 63) ≤ i ∧ i < 2 ^ 63) ∧
    (goParseInt64 s = none → setField (.intK w) v s = (v, some (.parseIntErr s))) ∧
    (∀ n, goParseUint64 s = some n →
        setField (.uintK w) v s = (.uintV w (wrapUint w n), none) ∧ n < 2 ^ 64) ∧
    (goParseUint64 s = none → setField (.uintK w) v s = (v, some (.parseUintErr s))) := by
  refine ⟨?_, ?_, ?_, ?_, ?_, ?_⟩
  · cases hp : goParseInt64 s <;> simp [setField, hp]
  · cases hp : goParseUint64 s <;> simp [setField, hp]
  · intro i hp
    exact ⟨by simp [setField, hp], goParseInt64_range s i hp⟩
  · intro hp
    simp [setField, hp]
  · intro n hp
    refine ⟨by simp [setField, hp], ?_⟩
    unfold goParseUint64 at hp
    split at hp
    · next m heq =>
      split at hp
      · next hcond =>
        have := Option.some.inj hp
        omega
      · exact Option.noConfusion hp
    · exact Option.noConfusion hp
  · intro hp
    simp [setField, hp]

theorem claim6_int_uint_coercion_witness :
    ((setField (.intK 8) (.intV 8 0) "300").2 = (setField (.intK 16) (.intV 16 0) "300").2) ∧
    ((setField (.uintK 8) (.intV 8 0) "300").2 = (setField (.uintK 16) (.intV 16 0) "300").2) ∧
    (∀ i, goParseInt64 "300" = some i →
        setField (.intK 8) (.intV 8 0) "300" = (.intV 8 (wrapInt 8 i), none) ∧
          -(2 ^ 63) ≤ i ∧ i < 2 ^ 63) ∧
    (goParseInt64 "300" = none →
        setField (.intK 8) (.intV 8 0) "300" = (.intV 8 0, some (.parseIntErr "300"))) ∧
    (∀ n, goParseUint64 "300" = some n →
        setField (.uintK 8) (.intV 8 0) "300" = (.uintV 8 (wrapUint 8 n), none) ∧ n < 2 ^ 64) ∧
    (goParseUint64 "300" = none →
        setField (.uintK 8) (.intV 8 0) "300" = (.intV 8 0, some (.parseUintErr "300"))) :=
  claim6_int_uint_coercion 8 16 (.intV 8 0) (.intV 16 0) "300"

/-- **C6, counterexample to the claim as stated.** The claim says a value
exceeding the declared width's range yields an error.  Decoding `"300"` into
an `int8` field succeeds: `strconv.ParseInt` runs at 64-bit width and
`reflect.Value.SetInt` truncates 300 to the int8 value 44, so the row decodes
with no error and the field holds 44. -/
theorem claim6_counterexample :
    unmarshalFields [⟨"a", true, 0, 0⟩] [⟨.intK 8, true⟩] ["300"] [.intV 8 0] [0] =
      ([.intV 8 44], none) := by
  decide
